import Mathlib

/-!
Shallow embedding of the measurement / calibration / loss pipeline of
`meRF.py` (RFPowerMeter).  Python floats are modelled by `ℚ`; code that can
raise an exception is modelled with `Option` / explicit outcome types.
-/

/-- A loss device (row of the `Device` table together with its filtered
`deviceParameters` rows): the `inUse` flag and the frequency↔loss table,
sorted ascending by frequency before interpolation (`sumLosses` sorts it).
Each table entry is `(FreqMHz, ValuedB)`. -/
structure Device where
  inUse : Bool
  table : List (ℚ × ℚ)
deriving DecidableEq, Repr

/-- Embedding of `np.interp(x, freqList, lossList)` on a table of
`(freq, value)` pairs assumed sorted ascending: clamped at both ends,
piecewise linear in between.  `none` models the `ValueError` numpy raises
when the table is empty ("array of sample points is empty"). -/
def interp (x : ℚ) : List (ℚ × ℚ) → Option ℚ
  | [] => none
  | p :: rest =>
    if x ≤ p.1 then some p.2
    else
      match rest with
      | [] => some p.2
      | q :: _ =>
        if x ≤ q.1 then some (p.2 + (q.2 - p.2) * (x - p.1) / (q.1 - p.1))
        else interp x rest

/-- One iteration of the device loop in `sumLosses`:
`attenuators.loss += np.interp(ui.freqBox.value(), freqList, lossList)`,
executed only for rows that pass the `inUse = 1` filter.  A raised
exception (`none`) propagates. -/
def lossStep (freq : ℚ) (acc : Option ℚ) (d : Device) : Option ℚ :=
  if d.inUse then
    match acc, interp freq d.table with
    | some s, some v => some (s + v)
    | _, _ => none
  else acc

/-- Embedding of `sumLosses` (meRF.py lines 460-486): starting from
`attenuators.loss = 0`, accumulate the interpolated loss of every in-use
device.  The result is the *stored* total (`attenuators.loss`), whose
per-device summands are negative for attenuation. -/
def sumLosses (freq : ℚ) (devices : List Device) : Option ℚ :=
  devices.foldl (lossStep freq) (some 0)

/-- The value shown in the GUI: `ui.totalLoss.setValue(-attenuators.loss)` —
the displayed total loss is the negated (positive-magnitude) stored total. -/
def totalLossDisplayed (freq : ℚ) (devices : List Device) : Option ℚ :=
  (sumLosses freq devices).map (fun s => -s)

/-- A row of the `Calibration` table as read by `selectCal`: frequency,
slope, intercept and the quality tag shown in the GUI label. -/
structure CalPoint where
  freq : ℚ
  slope : ℚ
  intercept : ℚ
deriving DecidableEq, Repr

/-- One iteration of the loop in `selectCal`: keep the candidate whenever
`difference > abs(ui.freqBox.value() - calRecord.value('FreqMHz'))`
(strict improvement, so on a tie the earlier row is kept).
The accumulator is `(difference, currently selected point)`. -/
def selStep (target : ℚ) (acc : ℚ × Option CalPoint) (p : CalPoint) : ℚ × Option CalPoint :=
  if |target - p.freq| < acc.1 then (|target - p.freq|, some p) else acc

/-- Embedding of `selectCal` (meRF.py lines 489-498): `difference` starts at
6000 and the loop runs over `range(calibration.tm.rowCount() - 1)`, i.e.
over every row except the last (`pts.dropLast`).  `none` means no row was
selected (the previous slope/intercept remain in effect; no error is
raised). -/
def selectCal (target : ℚ) (pts : List CalPoint) : Option CalPoint :=
  ((pts.dropLast).foldl (selStep target) (6000, none)).2

/-- The meter band thresholds `dB = [-90, -60, -30, 0, 30, 60]`. -/
def dBList : List ℚ := [-90, -60, -30, 0, 30, 60]

/-- Embedding of the auto-range search in `updateGUI` (meRF.py line 204):
`next(index for index, listValue in enumerate(dB) if listValue > PdBm)`.
`none` models the `StopIteration` path (range error). -/
def autoRangeScale (p : ℚ) : Option Nat :=
  dBList.findIdx? (fun t => decide (p < t))

/-- Modelled from the spec: the band index the specification prescribes —
"returns the index of the first threshold strictly greater than `dBm`;
decrements by one unless it is already zero".  Declared only to be compared
against the scale the code actually stores and carries (the code applies no
decrement on any path that executes). -/
def specRangeIndex (scale : Nat) : Nat :=
  if scale = 0 then 0 else scale - 1

/-- Outcome of `Measurement.calibrate` (meRF.py lines 254-270). -/
inductive CalibOutcome where
  /-- The computed transform is written back with `calibration.update_row`. -/
  | applied (slope intercept : ℚ)
  /-- The guard `0 not in (high, low, cal_high, cal_low)` failed: a warning
  pop-up is shown and nothing is applied. -/
  | zeroInputRejected
  /-- A `ZeroDivisionError` is raised by `(high - low)/(cal_high - cal_low)`
  or by `high / slope`. -/
  | divByZero
deriving DecidableEq, Repr

/-- Embedding of `Measurement.calibrate` (the spec's `deriveTransform`):
after the zero guard, Python first evaluates
`slope = (high - low)/(cal_high - cal_low)` (raising `ZeroDivisionError`
when `cal_high = cal_low`), then `intercept = cal_high - (high / slope)`
(raising when `slope = 0`, i.e. when `high = low`). -/
def calibrate (high low cal_high cal_low : ℚ) : CalibOutcome :=
  if high ≠ 0 ∧ low ≠ 0 ∧ cal_high ≠ 0 ∧ cal_low ≠ 0 then
    if cal_high - cal_low = 0 then .divByZero
    else
      let slope := (high - low) / (cal_high - cal_low)
      if slope = 0 then .divByZero
      else .applied slope (cal_high - high / slope)
  else .zeroInputRejected

/-- Sum of a list of rationals (for `np.average`). -/
def listSum : List ℚ → ℚ
  | [] => 0
  | x :: xs => x + listSum xs

/-- Embedding of `np.average` over a (non-empty) slice: sum divided by
length.  (`np.average` of an empty slice is NaN; the model returns `0`
there and theorems avoid that case.) -/
def npAverage (l : List ℚ) : ℚ := listSum l / l.length

/-- Embedding of `np.max(self.yAxis, self.peak_power)` — since
`self.peak_power = 0` is passed as the `axis` argument, this is simply the
maximum of the (non-empty) window. -/
def npMax : List ℚ → ℚ
  | [] => 0
  | x :: xs => xs.foldl max x

/-- The average sensor power of `calcPowers` (meRF.py line 180):
`avgP = np.average(self.yAxis[:average])` — Python slices clamp, hence
`List.take`. -/
def avgPower (window : List ℚ) (averagingCount : Nat) : ℚ :=
  npAverage (window.take averagingCount)

/-- The corrected power of `calcPowers` (meRF.py line 181):
`PdBm = np.subtract(avgP, attenuators.loss)`, where `attenuators.loss`
is the *stored* total produced by `sumLosses`. -/
def correctedPower (window : List ℚ) (averagingCount : Nat) (storedLoss : ℚ) : ℚ :=
  avgPower window averagingCount - storedLoss

/-- The triple `(avgP, PdBm, PdBm_pk)` computed by `calcPowers` each tick
(meRF.py lines 180-182): the windowed average, the loss-corrected average
`np.subtract(avgP, attenuators.loss)`, and the raw window maximum
`np.max(self.yAxis, self.peak_power)` — the peak is computed with no loss
correction.  These lines are live code, run every tick before `updateGUI`
is called. -/
def calcPowersOutputs (window : List ℚ) (averagingCount : Nat) (storedLoss : ℚ) :
    ℚ × ℚ × ℚ :=
  (avgPower window averagingCount,
    correctedPower window averagingCount storedLoss, npMax window)

/-- Embedding of one batch write into the rolling window (meRF.py lines
170-171): `self.yAxis = np.roll(self.yAxis, -self.buffer_size)` followed by
`self.yAxis[-self.buffer_size:] = buffer`. -/
def rollOverwrite (w : List ℚ) (b : List ℚ) : List ℚ :=
  let rolled := w.drop b.length ++ w.take b.length
  rolled.take (rolled.length - b.length) ++ b

/-- The mutable state touched by `stopMeter` / `exit_handler`:
the cancellation event `mp_running`, whether the `readSPI` subprocess is
still alive, the multiprocessing hand-off queue `mp_fifo`, the (unused)
`queue.SimpleQueue` field `fifo`, the SPI bus handle, the GUI update timer
and the database connection. -/
structure MeterState where
  mp_running : Bool
  samplerAlive : Bool
  mp_fifo : List (List ℚ)
  fifo : List (List ℚ)
  spiOpen : Bool
  timerOn : Bool
  dbOpen : Bool
deriving DecidableEq, Repr

/-- The primitive steps performed by `stopMeter` and `exit_handler`. -/
inductive StopAction where
  /-- Step `meter.mp_running.clear()`. -/
  | clearFlag
  /-- Step `while meter.spiTransaction.is_alive(): time.sleep(0.1)` — returns
  once the sampler has exited, which it does at the next batch boundary
  because the flag is already cleared. -/
  | pollSampler
  /-- Step `meter.gui_update_timer.stop()`. -/
  | stopTimer
  /-- Step `spi.close()`. -/
  | closeSpi
  /-- Step `while meter.fifo.qsize() > 0: meter.fifo.get()` — note this drains
  the unused `fifo`, not the hand-off queue `mp_fifo`. -/
  | drainFifo
  /-- Step `config.disconnect()`. -/
  | disconnectDb
deriving DecidableEq, Repr

/-- Effect of one primitive stop/exit step on the meter state. -/
def stepAction (s : MeterState) : StopAction → MeterState
  | .clearFlag => { s with mp_running := false }
  | .pollSampler => if s.mp_running then s else { s with samplerAlive := false }
  | .stopTimer => { s with timerOn := false }
  | .closeSpi => { s with spiOpen := false }
  | .drainFifo => { s with fifo := [] }
  | .disconnectDb => { s with dbOpen := false }

/-- Run a sequence of stop/exit steps. -/
def runActions (s : MeterState) (l : List StopAction) : MeterState :=
  l.foldl stepAction s

/-- The sequence of steps performed by `stopMeter` (meRF.py lines 568-582). -/
def stopMeterTrace : List StopAction :=
  [.clearFlag, .pollSampler, .stopTimer, .closeSpi]

/-- The sequence of steps performed by `exit_handler` (meRF.py lines
438-444): `stopMeter()`, drain `meter.fifo`, `config.disconnect()`,
`spi.close()`. -/
def exitHandlerTrace : List StopAction :=
  stopMeterTrace ++ [.drainFifo, .disconnectDb, .closeSpi]

/-- Outcome of the display stage `Measurement.updateGUI` (meRF.py lines
199-231) in Auto Range mode.  Line 215 evaluates `ui.peakBox.isChexked()`,
a misspelling of `isChecked`, which raises `AttributeError` on every call
that reaches it; so after the auto-range scan stores `self.scale` (line
204) and sets the unit label from the undecremented index (lines 205-206),
the method always crashes before the band lookup `dB[self.scale - 1]`
(lines 216/218) and before every power, rate and graph update
(lines 219-231). -/
inductive GUIOutcome where
  /-- Step `StopIteration` at line 204: `spiError('Range error')` and
  `stopMeter()` run, then the method returns without a band. -/
  | rangeError
  /-- Step `AttributeError` raised by the `isChexked` call at line 215; the
  stored scale is the raw (undecremented) scan result. -/
  | attrError (scale : Nat)
  /-- Display update that lines 216-231 would perform; unreachable. -/
  | reported (scale : Nat) (power : ℚ)
deriving DecidableEq, Repr

/-- Embedding of `updateGUI`'s Auto Range path coupled to the meter
lifecycle: the range scan either finds no band (range error: the meter is
stopped and the method returns) or stores the raw scale and then raises
`AttributeError` at the `isChexked` call — no corrected power is ever
reported to the display in either mode. -/
def updateGUI (PdBm : ℚ) (st : MeterState) : MeterState × GUIOutcome :=
  match autoRangeScale PdBm with
  | none => (runActions st stopMeterTrace, .rangeError)
  | some scale => (st, .attrError scale)

lemma interp_single (x : ℚ) (p : ℚ × ℚ) : interp x [p] = some p.2 := by
  rw [interp]
  split <;> rfl

lemma interp_cons_cons (x : ℚ) (p q : ℚ × ℚ) (rest : List (ℚ × ℚ)) :
    interp x (p :: q :: rest)
      = if x ≤ p.1 then some p.2
        else if x ≤ q.1 then some (p.2 + (q.2 - p.2) * (x - p.1) / (q.1 - p.1))
        else interp x (q :: rest) := rfl

lemma interp_head_le (x : ℚ) (p : ℚ × ℚ) (rest : List (ℚ × ℚ)) (h : x ≤ p.1) :
    interp x (p :: rest) = some p.2 := by
  cases rest with
  | nil => exact interp_single x p
  | cons q rest2 => rw [interp_cons_cons, if_pos h]

lemma interp_exact :
    ∀ (table : List (ℚ × ℚ)), table.Pairwise (fun a b => a.1 < b.1) →
      ∀ f v : ℚ, (f, v) ∈ table → interp f table = some v := by
  intro table
  induction table with
  | nil => intro _ f v hm; simp at hm
  | cons p rest ih =>
    intro hp f v hm
    rcases List.mem_cons.mp hm with heq | hmem
    · have hf : p.1 = f := by rw [← heq]
      have hv : p.2 = v := by rw [← heq]
      rw [interp_head_le f p rest (le_of_eq hf.symm), hv]
    · have hlt : p.1 < f := (List.pairwise_cons.mp hp).1 (f, v) hmem
      have htail := (List.pairwise_cons.mp hp).2
      have hnle : ¬ f ≤ p.1 := not_le.mpr hlt
      cases rest with
      | nil => simp at hmem
      | cons q rest2 =>
        rw [interp_cons_cons, if_neg hnle]
        rcases List.mem_cons.mp hmem with heq2 | hmem2
        · have hq1 : q.1 = f := by rw [← heq2]
          have hq2 : q.2 = v := by rw [← heq2]
          rw [if_pos (le_of_eq hq1.symm), hq1, hq2]
          have hne : f - p.1 ≠ 0 := sub_ne_zero.mpr (ne_of_gt hlt)
          rw [mul_div_assoc, div_self hne, mul_one]
          simp
        · have hqf : q.1 < f := (List.pairwise_cons.mp htail).1 (f, v) hmem2
          rw [if_neg (not_le.mpr hqf)]
          exact ih htail f v hmem

lemma interp_above :
    ∀ (table : List (ℚ × ℚ)) (f : ℚ), (∀ q ∈ table, q.1 < f) →
      interp f table = table.getLast?.map Prod.snd := by
  intro table
  induction table with
  | nil => intro f _; rfl
  | cons p rest ih =>
    intro f hq
    have hlt : p.1 < f := hq p (by simp)
    have hnle : ¬ f ≤ p.1 := not_le.mpr hlt
    cases rest with
    | nil => rw [interp_single]; rfl
    | cons q rest2 =>
      have hql : q.1 < f := hq q (by simp)
      rw [List.getLast?_cons_cons, interp_cons_cons, if_neg hnle,
        if_neg (not_le.mpr hql)]
      exact ih f (fun r hr => hq r (by simp [hr]))

lemma interp_below :
    ∀ (table : List (ℚ × ℚ)) (f : ℚ), (∀ q ∈ table, f < q.1) →
      interp f table = table.head?.map Prod.snd := by
  intro table f hq
  cases table with
  | nil => rfl
  | cons p rest =>
    have hlt : f < p.1 := hq p (by simp)
    rw [interp_head_le f p rest (le_of_lt hlt)]
    rfl

lemma sumLosses_filter_aux :
    ∀ (f : ℚ) (devices : List Device) (acc : Option ℚ),
      devices.foldl (lossStep f) acc
        = (devices.filter (fun d => d.inUse)).foldl (lossStep f) acc := by
  intro f devices
  induction devices with
  | nil => intro acc; rfl
  | cons d rest ih =>
    intro acc
    cases hu : d.inUse with
    | true => simp [List.filter_cons, hu, List.foldl_cons, ih]
    | false =>
      have hstep : lossStep f acc d = acc := by simp [lossStep, hu]
      simp [List.filter_cons, hu, List.foldl_cons, hstep, ih]

lemma lossStep_none (f : ℚ) (d : Device) : lossStep f none d = none := by
  unfold lossStep
  by_cases h : d.inUse = true
  · rw [if_pos h]
  · rw [if_neg h]

lemma foldl_lossStep_none (f : ℚ) :
    ∀ ds : List Device, ds.foldl (lossStep f) none = none := by
  intro ds
  induction ds with
  | nil => rfl
  | cons d rest ih => simp [List.foldl_cons, lossStep_none, ih]

lemma sumLosses_empty_abort :
    ∀ (f : ℚ) (devices : List Device) (acc : Option ℚ),
      (∃ d ∈ devices, d.inUse = true ∧ d.table = []) →
      devices.foldl (lossStep f) acc = none := by
  intro f devices
  induction devices with
  | nil => intro acc h; rcases h with ⟨d, hd, _⟩; simp at hd
  | cons d rest ih =>
    intro acc h
    rcases h with ⟨e, he, hu, ht⟩
    rcases List.mem_cons.mp he with heq | hmem
    · have hstep : lossStep f acc d = none := by
        unfold lossStep
        rw [← heq, if_pos hu, ht]
        cases acc <;> rfl
      rw [List.foldl_cons, hstep, foldl_lossStep_none]
    · rw [List.foldl_cons]
      exact ih _ ⟨e, hmem, hu, ht⟩

/-- C2: `sumLosses` filters to in-use devices (dropping a not-in-use device
never changes the total); for a sorted table, interpolating at a frequency
present in the table returns exactly the tabulated value, so a single
in-use device contributes the negative of the tabulated value to the
displayed total loss; and outside the table's range the interpolation is
clamped to the nearest edge value (last entry above the range, first entry
below it). -/
theorem C2_totalLoss :
    (∀ (f : ℚ) (devices : List Device),
        sumLosses f devices = sumLosses f (devices.filter (fun d => d.inUse)))
    ∧ (∀ (f v : ℚ) (table : List (ℚ × ℚ)),
        table.Pairwise (fun a b => a.1 < b.1) → (f, v) ∈ table →
        interp f table = some v
          ∧ totalLossDisplayed f [⟨true, table⟩] = some (-v))
    ∧ (∀ (f : ℚ) (table : List (ℚ × ℚ)),
        (∀ q ∈ table, q.1 < f) → interp f table = table.getLast?.map Prod.snd)
    ∧ (∀ (f : ℚ) (table : List (ℚ × ℚ)),
        (∀ q ∈ table, f < q.1) → interp f table = table.head?.map Prod.snd) := by
  refine ⟨?_, ?_, fun f table h => interp_above table f h,
    fun f table h => interp_below table f h⟩
  · intro f devices
    exact sumLosses_filter_aux f devices (some 0)
  · intro f v table hp hm
    have h1 : interp f table = some v := interp_exact table hp f v hm
    refine ⟨h1, ?_⟩
    simp [totalLossDisplayed, sumLosses, lossStep, h1]

/-- Witness for C2 on a concrete two-point table: the in-use filter, the
exact-point value, and both clamped extrapolation edges. -/
theorem C2_totalLoss_witness :
    sumLosses 150 [⟨true, [(100, -3), (200, -5)]⟩, ⟨false, [(7, 7)]⟩]
        = sumLosses 150
            ([⟨true, [(100, -3), (200, -5)]⟩, ⟨false, [(7, 7)]⟩].filter
              (fun d => d.inUse))
    ∧ (interp 200 [(100, -3), (200, -5)] = some (-5)
        ∧ totalLossDisplayed 200 [⟨true, [(100, -3), (200, -5)]⟩] = some (-(-5)))
    ∧ interp 300 [(100, -3), (200, -5)]
        = ([(100, -3), (200, -5)] : List (ℚ × ℚ)).getLast?.map Prod.snd
    ∧ interp 50 [(100, -3), (200, -5)]
        = ([(100, -3), (200, -5)] : List (ℚ × ℚ)).head?.map Prod.snd := by
  refine ⟨C2_totalLoss.1 150 _, C2_totalLoss.2.1 200 (-5) _ ?_ ?_,
    C2_totalLoss.2.2.1 300 _ ?_, C2_totalLoss.2.2.2 50 _ ?_⟩
  · norm_num [List.pairwise_cons]
  · decide
  · decide
  · decide

/-- C7 counterexample: the claim says an in-use device with an empty loss
table contributes `0` and the sum completes; but `np.interp` raises
`ValueError` on an empty table, so `sumLosses` aborts (`none`) instead of
completing with `some 0`. -/
theorem C7_counterexample :
    sumLosses 150 [⟨true, []⟩] = none
    ∧ sumLosses 150 [⟨true, []⟩] ≠ some 0 := by
  constructor <;> simp [sumLosses, lossStep, interp]

/-- C7 amended: an in-use device with an empty loss table makes `sumLosses`
abort with `np.interp`'s empty-table `ValueError`; there is no
incomplete-data signal and the measurement's loss total is never produced. -/
theorem C7_empty_table_aborts :
    ∀ (f : ℚ) (devices : List Device),
      (∃ d ∈ devices, d.inUse = true ∧ d.table = []) →
      sumLosses f devices = none := by
  intro f devices h
  exact sumLosses_empty_abort f devices (some 0) h

/-- Witness for C7's amended statement: a list with one healthy not-in-use
device and one empty-table in-use device aborts. -/
theorem C7_empty_table_aborts_witness :
    sumLosses 100 [⟨false, [(1, 1)]⟩, ⟨true, []⟩] = none :=
  C7_empty_table_aborts 100 _ ⟨⟨true, []⟩, by decide, rfl, rfl⟩

lemma rollOverwrite_eq (w b : List ℚ) (h : b.length ≤ w.length) :
    rollOverwrite w b = w.drop b.length ++ b := by
  simp only [rollOverwrite]
  have hlen : (w.drop b.length ++ w.take b.length).length - b.length
      = (w.drop b.length).length := by
    simp only [List.length_append, List.length_drop, List.length_take]
    omega
  rw [hlen, List.take_left]

lemma rollOverwrite_length (w b : List ℚ) (h : b.length ≤ w.length) :
    (rollOverwrite w b).length = w.length := by
  rw [rollOverwrite_eq w b h]
  simp only [List.length_append, List.length_drop]
  omega

lemma foldl_rollOverwrite_length :
    ∀ (batches : List (List ℚ)) (w : List ℚ) (bs : Nat),
      bs ≤ w.length → (∀ b ∈ batches, b.length = bs) →
      (batches.foldl rollOverwrite w).length = w.length := by
  intro batches
  induction batches with
  | nil => intro w bs _ _; rfl
  | cons b rest ih =>
    intro w bs h hb
    have hbl : b.length = bs := hb b (List.mem_cons_self b rest)
    have hbw : b.length ≤ w.length := by rw [hbl]; exact h
    have h1 : (rollOverwrite w b).length = w.length := rollOverwrite_length w b hbw
    calc ((b :: rest).foldl rollOverwrite w).length
        = (rest.foldl rollOverwrite (rollOverwrite w b)).length := rfl
      _ = (rollOverwrite w b).length :=
          ih _ bs (by rw [h1]; exact h) (fun x hx => hb x (List.mem_cons_of_mem _ hx))
      _ = w.length := h1

lemma foldl_rollOverwrite_last :
    ∀ (batches : List (List ℚ)) (w : List ℚ) (bs : Nat) (lb : List ℚ),
      bs ≤ w.length → (∀ b ∈ batches, b.length = bs) →
      batches.getLast? = some lb →
      (batches.foldl rollOverwrite w).drop (w.length - bs) = lb := by
  intro batches
  induction batches with
  | nil => intro w bs lb _ _ hl; simp at hl
  | cons b rest ih =>
    intro w bs lb h hb hl
    cases rest with
    | nil =>
      have hbl : b.length = bs := hb b (by simp)
      have hbw : b.length ≤ w.length := by rw [hbl]; exact h
      have hlb : b = lb := by simpa using hl
      show (rollOverwrite w b).drop (w.length - bs) = lb
      rw [rollOverwrite_eq w b hbw]
      have hd : w.length - bs = (w.drop b.length).length := by
        simp only [List.length_drop]; rw [hbl]
      rw [hd, List.drop_left]
      exact hlb
    | cons r rest2 =>
      have hbl : b.length = bs := hb b (by simp)
      have hbw : b.length ≤ w.length := by rw [hbl]; exact h
      have h1 : (rollOverwrite w b).length = w.length := rollOverwrite_length w b hbw
      rw [List.getLast?_cons_cons] at hl
      have hres := ih (rollOverwrite w b) bs lb (by rw [h1]; exact h)
        (fun x hx => hb x (by simp [hx])) hl
      rw [h1] at hres
      exact hres

/-- C8: writes into the rolling window keep its size constant (as long as
the batch size is at most the capacity), a single write is exactly
"drop the oldest `batchSize` elements and append the batch" (FIFO
oldest-overwrite), and after any non-empty sequence of batch writes the
final `batchSize` elements of the window equal the last pushed batch. -/
theorem C8_rollingWindow :
    ∀ (w : List ℚ) (bs : Nat) (batches : List (List ℚ)),
      bs ≤ w.length → (∀ b ∈ batches, b.length = bs) →
      ((batches.foldl rollOverwrite w).length = w.length
        ∧ (∀ b : List ℚ, b.length = bs → rollOverwrite w b = w.drop bs ++ b)
        ∧ (∀ lb, batches.getLast? = some lb →
            (batches.foldl rollOverwrite w).drop (w.length - bs) = lb)) := by
  intro w bs batches h hb
  refine ⟨foldl_rollOverwrite_length batches w bs h hb, ?_, ?_⟩
  · intro b hbl
    rw [← hbl]
    exact rollOverwrite_eq w b (by rw [hbl]; exact h)
  · intro lb hl
    exact foldl_rollOverwrite_last batches w bs lb h hb hl

/-- Witness for C8: capacity 4, batch size 2, three pushed batches — the
size is unchanged, a write drops the oldest two samples, and the final two
elements equal the last batch. -/
theorem C8_rollingWindow_witness :
    ([[1, 2], [3, 4], [5, 6]].foldl rollOverwrite [0, 0, 0, 0]).length
        = ([0, 0, 0, 0] : List ℚ).length
    ∧ rollOverwrite [0, 0, 0, 0] [9, 8] = ([0, 0, 0, 0] : List ℚ).drop 2 ++ [9, 8]
    ∧ ([[1, 2], [3, 4], [5, 6]].foldl rollOverwrite [0, 0, 0, 0]).drop
        (([0, 0, 0, 0] : List ℚ).length - 2) = [5, 6] := by
  have H := C8_rollingWindow [0, 0, 0, 0] 2 [[1, 2], [3, 4], [5, 6]]
    (by decide) (by decide)
  exact ⟨H.1, H.2.1 [9, 8] (by decide), H.2.2 [5, 6] (by decide)⟩

/-- C1 counterexample: at a concrete tick with window `[0, 10]`, averaging
count 2 and stored loss `-3`, the live peak computation (meRF.py line 182)
yields the raw maximum `10`, not "peak minus total loss" under either sign
convention (`13` for the stored total, `7` for the displayed magnitude);
and the display stage raises `AttributeError` at the misspelled `isChexked`
call (line 215) — with corrected power `8` the scan stores scale `4` and
then crashes, so no corrected power is reported at all. -/
theorem C1_counterexample :
    (calcPowersOutputs [0, 10] 2 (-3)).2.2 = 10
    ∧ (calcPowersOutputs [0, 10] 2 (-3)).2.2 ≠ 10 - (-3)
    ∧ (calcPowersOutputs [0, 10] 2 (-3)).2.2 ≠ 10 - 3
    ∧ (calcPowersOutputs [0, 10] 2 (-3)).2.1 = 8
    ∧ (updateGUI 8 ⟨true, true, [], [], true, true, true⟩).2
        = GUIOutcome.attrError 4 := by
  refine ⟨?_, ?_, ?_, ?_, ?_⟩
  · norm_num [calcPowersOutputs, npMax, List.foldl, max_def]
  · norm_num [calcPowersOutputs, npMax, List.foldl, max_def]
  · norm_num [calcPowersOutputs, npMax, List.foldl, max_def]
  · norm_num [calcPowersOutputs, correctedPower, avgPower, npAverage, listSum,
      List.take]
  · norm_num [updateGUI, autoRangeScale, dBList, List.findIdx?]

/-- C1 amended: each tick `calcPowers` computes (lines 180-182, live code)
the corrected average power as the windowed average minus the *stored*
(negative) total loss — equivalently plus the positive displayed magnitude
— and computes the peak as the raw window maximum, independent of the
loss; but no power is ever reported: in Auto Range mode `updateGUI` either
stops the meter on a range error or raises `AttributeError` at the
misspelled `isChexked` call, and never produces a display update. -/
theorem C1_corrected_power :
    ∀ (f : ℚ) (devices : List Device) (L : ℚ) (window : List ℚ) (n : Nat),
      sumLosses f devices = some L →
      ((calcPowersOutputs window n L).2.1 = avgPower window n - L
        ∧ totalLossDisplayed f devices = some (-L)
        ∧ (∀ D, totalLossDisplayed f devices = some D →
            (calcPowersOutputs window n L).2.1 = avgPower window n + D)
        ∧ (∀ L' : ℚ, (calcPowersOutputs window n L).2.2
            = (calcPowersOutputs window n L').2.2)
        ∧ (∀ (p : ℚ) (st : MeterState) (s : Nat) (pow : ℚ),
            (updateGUI p st).2 ≠ GUIOutcome.reported s pow)) := by
  intro f devices L window n hL
  refine ⟨rfl, ?_, ?_, fun L' => rfl, ?_⟩
  · simp [totalLossDisplayed, hL]
  · intro D hD
    simp only [totalLossDisplayed, hL, Option.map_some', Option.some.injEq] at hD
    rw [← hD]
    simp [calcPowersOutputs, correctedPower, sub_eq_add_neg]
  · intro p st s pow
    cases h : autoRangeScale p <;> simp [updateGUI, h]

/-- Witness for C1's amended statement on a concrete device list, window
and loss, including the never-reported display outcome. -/
theorem C1_corrected_power_witness :
    (calcPowersOutputs [1, 3] 2 (-4)).2.1 = avgPower [1, 3] 2 - (-4)
    ∧ totalLossDisplayed 150 [⟨true, [(100, -3), (200, -5)]⟩] = some (-(-4))
    ∧ (calcPowersOutputs [1, 3] 2 (-4)).2.2 = (calcPowersOutputs [1, 3] 2 0).2.2
    ∧ (updateGUI 0 ⟨true, true, [], [], true, true, true⟩).2
        ≠ GUIOutcome.reported 3 0 := by
  have H := C1_corrected_power 150 [⟨true, [(100, -3), (200, -5)]⟩] (-4) [1, 3] 2
    (by norm_num [sumLosses, lossStep, interp])
  exact ⟨H.1, H.2.1, H.2.2.2.1 0,
    H.2.2.2.2 0 ⟨true, true, [], [], true, true, true⟩ 3 0⟩

lemma selFold_spec (t : ℚ) :
    ∀ (l : List CalPoint) (acc : ℚ × Option CalPoint),
      ((l.foldl (selStep t) acc).1 ≤ acc.1)
      ∧ (∀ q ∈ l, (l.foldl (selStep t) acc).1 ≤ |t - q.freq|)
      ∧ ((l.foldl (selStep t) acc) = acc
          ∨ ∃ p, p ∈ l ∧ (l.foldl (selStep t) acc).2 = some p
              ∧ (l.foldl (selStep t) acc).1 = |t - p.freq|
              ∧ (l.foldl (selStep t) acc).1 < acc.1) := by
  intro l
  induction l with
  | nil =>
    intro acc
    exact ⟨le_refl _, by simp, Or.inl rfl⟩
  | cons p rest ih =>
    intro acc
    simp only [List.foldl_cons]
    by_cases himp : |t - p.freq| < acc.1
    · have hacc : selStep t acc p = (|t - p.freq|, some p) := by simp [selStep, himp]
      rw [hacc]
      obtain ⟨ih1, ih2, ih3⟩ := ih (|t - p.freq|, some p)
      refine ⟨le_trans ih1 (le_of_lt himp), ?_, ?_⟩
      · intro q hq
        rcases List.mem_cons.mp hq with heq | hq2
        · rw [heq]; exact ih1
        · exact ih2 q hq2
      · rcases ih3 with heq | ⟨p', hp', h2, h3, h4⟩
        · exact Or.inr ⟨p, List.mem_cons_self p rest, by rw [heq], by rw [heq],
            by rw [heq]; exact himp⟩
        · exact Or.inr ⟨p', List.mem_cons_of_mem _ hp', h2, h3, lt_trans h4 himp⟩
    · have hacc : selStep t acc p = acc := by simp [selStep, himp]
      rw [hacc]
      obtain ⟨ih1, ih2, ih3⟩ := ih acc
      refine ⟨ih1, ?_, ?_⟩
      · intro q hq
        rcases List.mem_cons.mp hq with heq | hq2
        · rw [heq]; exact le_trans ih1 (not_lt.mp himp)
        · exact ih2 q hq2
      · rcases ih3 with heq | ⟨p', hp', h2, h3, h4⟩
        · exact Or.inl heq
        · exact Or.inr ⟨p', List.mem_cons_of_mem _ hp', h2, h3, h4⟩

/-- C3 counterexample: the claim says the selection scans all points and
returns the minimizer of the absolute frequency distance; but the loop runs
over `range(rowCount() - 1)`, skipping the last row — with points at
100 MHz and 1000 MHz and target 1000 MHz the code selects the 100 MHz
point even though the 1000 MHz point is strictly nearer. -/
theorem C3_counterexample :
    selectCal 1000 [⟨100, 1, 1⟩, ⟨1000, 2, 2⟩] = some ⟨100, 1, 1⟩
    ∧ |(1000 : ℚ) - (⟨1000, 2, 2⟩ : CalPoint).freq|
        < |(1000 : ℚ) - (⟨100, 1, 1⟩ : CalPoint).freq| := by
  constructor
  · norm_num [selectCal, selStep]
  · show |(1000 : ℚ) - 1000| < |(1000 : ℚ) - 100|
    rw [sub_self, abs_zero]
    exact abs_pos.mpr (by norm_num)

/-- C3 amended: `selectCal` scans all rows except the last; on an empty or
single-row set it selects nothing and raises no error; among the scanned
rows it returns a point of minimal absolute frequency distance provided
some scanned point is nearer than the initial `difference = 6000`, and on a
tie the earlier row wins (strict-improvement update). -/
theorem C3_selectCal :
    (∀ t : ℚ, selectCal t [] = none)
    ∧ (∀ (t : ℚ) (p : CalPoint), selectCal t [p] = none)
    ∧ (∀ (t : ℚ) (pts : List CalPoint) (p₀ : CalPoint),
        p₀ ∈ pts.dropLast → |t - p₀.freq| < 6000 →
        ∃ p, selectCal t pts = some p ∧ p ∈ pts.dropLast
          ∧ ∀ q ∈ pts.dropLast, |t - p.freq| ≤ |t - q.freq|)
    ∧ (∀ (t : ℚ) (p q r : CalPoint),
        |t - p.freq| < 6000 → |t - p.freq| = |t - q.freq| →
        selectCal t [p, q, r] = some p) := by
  refine ⟨fun t => rfl, fun t p => rfl, ?_, ?_⟩
  · intro t pts p₀ hmem hlt
    obtain ⟨h1, h2, h3⟩ := selFold_spec t pts.dropLast (6000, none)
    have hres1 : (pts.dropLast.foldl (selStep t) (6000, none)).1 < 6000 :=
      lt_of_le_of_lt (h2 p₀ hmem) hlt
    rcases h3 with heq | ⟨p, hp, hsome, hdist, _⟩
    · rw [heq] at hres1
      exact absurd hres1 (lt_irrefl _)
    · refine ⟨p, hsome, hp, ?_⟩
      intro q hq
      rw [← hdist]
      exact h2 q hq
  · intro t p q r hlt heq
    have hne : ¬(|t - q.freq| < |t - p.freq|) := by rw [← heq]; exact lt_irrefl _
    simp [selectCal, List.dropLast, selStep, hlt, hne]

/-- Witness for C3's amended statement: a scanned-prefix minimizer exists
for a three-row table, and a first-row tie win on equidistant rows. -/
theorem C3_selectCal_witness :
    (∃ p, selectCal 120 [⟨100, 0, 0⟩, ⟨110, 0, 0⟩, ⟨500, 0, 0⟩] = some p
      ∧ p ∈ ([⟨100, 0, 0⟩, ⟨110, 0, 0⟩, ⟨500, 0, 0⟩] : List CalPoint).dropLast
      ∧ ∀ q ∈ ([⟨100, 0, 0⟩, ⟨110, 0, 0⟩, ⟨500, 0, 0⟩] : List CalPoint).dropLast,
          |(120 : ℚ) - p.freq| ≤ |(120 : ℚ) - q.freq|)
    ∧ selectCal 0 [⟨10, 0, 0⟩, ⟨-10, 0, 0⟩, ⟨99, 0, 0⟩] = some ⟨10, 0, 0⟩ := by
  constructor
  · refine C3_selectCal.2.2.1 120 _ ⟨110, 0, 0⟩ (by simp [List.dropLast]) ?_
    show |(120 : ℚ) - 110| < 6000
    rw [show (120 : ℚ) - 110 = 10 by norm_num, abs_of_pos (by norm_num : (0:ℚ) < 10)]
    norm_num
  · refine C3_selectCal.2.2.2 0 ⟨10, 0, 0⟩ ⟨-10, 0, 0⟩ ⟨99, 0, 0⟩ ?_ ?_
    · show |(0 : ℚ) - 10| < 6000
      rw [show (0 : ℚ) - 10 = -10 by norm_num, abs_neg,
        abs_of_pos (by norm_num : (0:ℚ) < 10)]
      norm_num
    · show |(0 : ℚ) - 10| = |(0 : ℚ) - -10|
      rw [show (0 : ℚ) - 10 = -10 by norm_num, show (0 : ℚ) - -10 = 10 by norm_num,
        abs_neg]

lemma autoRangeScale_eq (p : ℚ) :
    autoRangeScale p =
      if p < -90 then some 0
      else if p < -60 then some 1
      else if p < -30 then some 2
      else if p < 0 then some 3
      else if p < 30 then some 4
      else if p < 60 then some 5
      else none := by
  by_cases h1 : p < -90
  · simp [autoRangeScale, dBList, h1]
  · by_cases h2 : p < -60
    · simp [autoRangeScale, dBList, h1, h2]
    · by_cases h3 : p < -30
      · simp [autoRangeScale, dBList, h1, h2, h3]
      · by_cases h4 : p < 0
        · simp [autoRangeScale, dBList, h1, h2, h3, h4]
        · by_cases h5 : p < 30
          · simp [autoRangeScale, dBList, h1, h2, h3, h4, h5]
          · by_cases h6 : p < 60
            · simp [autoRangeScale, dBList, h1, h2, h3, h4, h5, h6]
            · simp [autoRangeScale, dBList, h1, h2, h3, h4, h5, h6]

lemma runActions_stopMeter (s : MeterState) :
    runActions s stopMeterTrace
      = { s with
            mp_running := false
            samplerAlive := false
            timerOn := false
            spiOpen := false } := by
  simp [runActions, stopMeterTrace, List.foldl, stepAction]

lemma runActions_exitHandler (s : MeterState) :
    runActions s exitHandlerTrace
      = { s with
            mp_running := false
            samplerAlive := false
            timerOn := false
            spiOpen := false
            fifo := []
            dbOpen := false } := by
  simp [runActions, exitHandlerTrace, stopMeterTrace, List.foldl, stepAction]

/-- C4 counterexample: the claim says the selected index is "decremented
by one unless that index is already zero"; in the code the scan stores the
raw index (`5` dBm gives scale `4`, used undecremented for the unit label
at lines 205-206) and `updateGUI` then raises `AttributeError` at the
`isChexked` call, so the decrementing lookup `dB[self.scale - 1]` is never
reached: the index in effect is `4`, not the spec's `3`. -/
theorem C4_counterexample :
    autoRangeScale 5 = some 4
    ∧ (updateGUI 5 ⟨true, true, [], [], true, true, true⟩).2
        = GUIOutcome.attrError 4
    ∧ specRangeIndex 4 = 3
    ∧ (4 : Nat) ≠ specRangeIndex 4 := by
  refine ⟨?_, ?_, ?_, ?_⟩
  · norm_num [autoRangeScale, dBList, List.findIdx?]
  · norm_num [updateGUI, autoRangeScale, dBList, List.findIdx?]
  · norm_num [specRangeIndex]
  · norm_num [specRangeIndex]

/-- C4 amended: the auto-range scan returns the index of the first
threshold strictly greater than the power, failing exactly when the power
is at least the top threshold `60`; on failure the measurement is stopped
(GUI timer off, bus released) rather than clamped; on success the power
lies in the half-open band below the found threshold (and below `-90` for
index `0`), but the found index is carried raw into the `AttributeError`
raised at the `isChexked` call — it is never decremented and no band is
ever reported to the display. -/
theorem C4_autoRange :
    ∀ p : ℚ,
      (autoRangeScale p = none ↔ 60 ≤ p)
      ∧ (∀ s : Nat, autoRangeScale p = some s → 0 < s →
          dBList.getD (s - 1) 0 ≤ p ∧ p < dBList.getD s 0)
      ∧ (autoRangeScale p = some 0 → p < -90)
      ∧ (∀ (st : MeterState) (s : Nat), autoRangeScale p = some s →
          updateGUI p st = (st, GUIOutcome.attrError s))
      ∧ (∀ st : MeterState, autoRangeScale p = none →
          updateGUI p st = (runActions st stopMeterTrace, GUIOutcome.rangeError)
            ∧ (runActions st stopMeterTrace).timerOn = false
            ∧ (runActions st stopMeterTrace).spiOpen = false)
      ∧ (∀ (st : MeterState) (s : Nat) (pow : ℚ),
          (updateGUI p st).2 ≠ GUIOutcome.reported s pow) := by
  intro p
  refine ⟨?_, ?_, ?_, ?_, ?_, ?_⟩
  · rw [autoRangeScale_eq]
    split_ifs with h1 h2 h3 h4 h5 h6 <;> simp <;> linarith
  · intro s hs hpos
    rw [autoRangeScale_eq] at hs
    split_ifs at hs with h1 h2 h3 h4 h5 h6 <;>
      simp only [Option.some.injEq] at hs <;> subst hs
    · exact absurd hpos (lt_irrefl 0)
    · simp [dBList]; constructor <;> linarith
    · simp [dBList]; constructor <;> linarith
    · simp [dBList]; constructor <;> linarith
    · simp [dBList]; constructor <;> linarith
    · simp [dBList]; constructor <;> linarith
  · intro h0
    rw [autoRangeScale_eq] at h0
    split_ifs at h0 with h1 h2 h3 h4 h5 h6
    · exact h1
    all_goals simp at h0
  · intro st s hs
    simp [updateGUI, hs]
  · intro st hnone
    refine ⟨by simp [updateGUI, hnone], ?_, ?_⟩ <;>
      simp [runActions_stopMeter]
  · intro st s pow
    cases h : autoRangeScale p <;> simp [updateGUI, h]

/-- Witness for C4's amended statement at concrete powers `100`, `5` and
`-100`. -/
theorem C4_autoRange_witness :
    (autoRangeScale 100 = none ↔ (60 : ℚ) ≤ 100)
    ∧ (dBList.getD (4 - 1) 0 ≤ (5 : ℚ) ∧ (5 : ℚ) < dBList.getD 4 0)
    ∧ ((-100 : ℚ) < -90)
    ∧ updateGUI 5 ⟨true, true, [], [], true, true, true⟩
        = (⟨true, true, [], [], true, true, true⟩, GUIOutcome.attrError 4)
    ∧ (updateGUI 100 ⟨true, true, [], [], true, true, true⟩
          = (runActions ⟨true, true, [], [], true, true, true⟩ stopMeterTrace,
              GUIOutcome.rangeError)
        ∧ (runActions ⟨true, true, [], [], true, true, true⟩ stopMeterTrace).timerOn
            = false
        ∧ (runActions ⟨true, true, [], [], true, true, true⟩ stopMeterTrace).spiOpen
            = false)
    ∧ (updateGUI 5 ⟨true, true, [], [], true, true, true⟩).2
        ≠ GUIOutcome.reported 3 1 := by
  refine ⟨(C4_autoRange 100).1,
    (C4_autoRange 5).2.1 4 (by norm_num [autoRangeScale, dBList, List.findIdx?])
      (by norm_num),
    (C4_autoRange (-100)).2.2.1
      (by norm_num [autoRangeScale, dBList, List.findIdx?]),
    (C4_autoRange 5).2.2.2.1 ⟨true, true, [], [], true, true, true⟩ 4
      (by norm_num [autoRangeScale, dBList, List.findIdx?]),
    (C4_autoRange 100).2.2.2.2.1 ⟨true, true, [], [], true, true, true⟩
      (by norm_num [autoRangeScale, dBList, List.findIdx?]),
    (C4_autoRange 5).2.2.2.2.2 ⟨true, true, [], [], true, true, true⟩ 3 1⟩

/-- C9 counterexample: the claim says remaining queued sample batches are
drained from the hand-off queue before the bus is released; but the stop
path never touches `mp_fifo` (the exit handler drains the unused `fifo`
instead), so after a full stop/exit the bus is closed while a batch is
still queued. -/
theorem C9_counterexample :
    (runActions ⟨true, true, [[3]], [], true, true, true⟩ exitHandlerTrace).spiOpen
        = false
    ∧ (runActions ⟨true, true, [[3]], [], true, true, true⟩ exitHandlerTrace).mp_fifo
        ≠ [] := by
  decide

/-- C9 amended: on stop the controller clears the cancellation flag, polls
until the sampler has terminated, and only then closes the bus — at no
prefix of the exit sequence is the bus closed while the sampler is alive —
but neither `stopMeter` nor `exit_handler` drains the multiprocessing
hand-off queue `mp_fifo` (only the unused legacy `fifo` is emptied). -/
theorem C9_stop_sequence :
    ∀ s0 : MeterState, s0.spiOpen = true →
      ((∀ n : Nat, (runActions s0 (exitHandlerTrace.take n)).spiOpen = false →
          (runActions s0 (exitHandlerTrace.take n)).samplerAlive = false)
        ∧ (runActions s0 stopMeterTrace).samplerAlive = false
        ∧ (runActions s0 stopMeterTrace).spiOpen = false
        ∧ (runActions s0 stopMeterTrace).mp_fifo = s0.mp_fifo
        ∧ (runActions s0 exitHandlerTrace).mp_fifo = s0.mp_fifo
        ∧ (runActions s0 exitHandlerTrace).fifo = []) := by
  intro s0 h
  refine ⟨?_, by simp [runActions_stopMeter], by simp [runActions_stopMeter],
    by simp [runActions_stopMeter], by simp [runActions_exitHandler],
    by simp [runActions_exitHandler]⟩
  intro n hn
  rcases n with _ | _ | _ | _ | _ | _ | _ | n
  · simp [runActions, exitHandlerTrace, stopMeterTrace, stepAction, h] at hn
  · simp [runActions, exitHandlerTrace, stopMeterTrace, stepAction, h] at hn
  · simp [runActions, exitHandlerTrace, stopMeterTrace, stepAction, h] at hn
  · simp [runActions, exitHandlerTrace, stopMeterTrace, stepAction, h] at hn
  · simp [runActions, exitHandlerTrace, stopMeterTrace, stepAction]
  · simp [runActions, exitHandlerTrace, stopMeterTrace, stepAction]
  · simp [runActions, exitHandlerTrace, stopMeterTrace, stepAction]
  · rw [List.take_of_length_le (by simp [exitHandlerTrace, stopMeterTrace])]
    simp [runActions_exitHandler]

/-- Witness for C9's amended statement on a concrete initial state with one
queued batch in the hand-off queue. -/
theorem C9_stop_sequence_witness :
    (runActions ⟨true, true, [[1]], [[2]], true, true, true⟩ stopMeterTrace).samplerAlive
        = false
    ∧ (runActions ⟨true, true, [[1]], [[2]], true, true, true⟩ stopMeterTrace).spiOpen
        = false
    ∧ (runActions ⟨true, true, [[1]], [[2]], true, true, true⟩ exitHandlerTrace).mp_fifo
        = [[1]]
    ∧ (runActions ⟨true, true, [[1]], [[2]], true, true, true⟩ exitHandlerTrace).fifo
        = [] := by
  have H := C9_stop_sequence ⟨true, true, [[1]], [[2]], true, true, true⟩ rfl
  exact ⟨H.2.1, H.2.2.1, H.2.2.2.2.1, H.2.2.2.2.2⟩

/-- C5: the calibration derivation computes
`slope = (highCode - lowCode) / (calHigh - calLow)` and
`intercept = calHigh - highCode/slope`; on the datasheet example
`(2000, 500, -10, -50)` this yields slope `37.5` and intercept `-190/3`
(which is within `0.01` of `-63.33`); and whenever any of the four inputs
is zero the zero guard rejects the calibration and nothing is applied. -/
theorem C5_deriveTransform :
    (calibrate 2000 500 (-10) (-50) = .applied (75 / 2) (-190 / 3)
      ∧ (75 / 2 : ℚ) = 37.5
      ∧ |(-190 / 3 : ℚ) - (-63.33)| < 1 / 100)
    ∧ ∀ high low cal_high cal_low : ℚ,
        (high = 0 ∨ low = 0 ∨ cal_high = 0 ∨ cal_low = 0) →
        calibrate high low cal_high cal_low = .zeroInputRejected := by
  refine ⟨⟨by norm_num [calibrate], by norm_num, by rw [abs_sub_lt_iff]; norm_num⟩, ?_⟩
  intro h l ch cl hz
  have hng : ¬(h ≠ 0 ∧ l ≠ 0 ∧ ch ≠ 0 ∧ cl ≠ 0) := by tauto
  simp only [calibrate, if_neg hng]

/-- Witness for C5 at concrete inputs: a zero `highCode` is rejected, and
the datasheet example is applied with slope `37.5`. -/
theorem C5_deriveTransform_witness :
    calibrate 0 500 (-10) (-50) = .zeroInputRejected
    ∧ calibrate 2000 500 (-10) (-50) = .applied (75 / 2) (-190 / 3) :=
  ⟨C5_deriveTransform.2 0 500 (-10) (-50) (Or.inl rfl), C5_deriveTransform.1.1⟩

/-- C10: the zero-input guard does not make the arithmetic total — with all
four inputs nonzero, `calHigh = calLow` makes the slope division raise
`ZeroDivisionError`, and `highCode = lowCode` gives slope `0` so the
intercept division `high / slope` raises. -/
theorem C10_division_not_total :
    calibrate 500 500 (-10) (-50) = .divByZero
    ∧ calibrate 2000 500 (-10) (-10) = .divByZero := by
  constructor <;> norm_num [calibrate]

/-- C6 counterexample: the claim says a zero-or-positive derived slope is
reported as `InvalidCalibration` and rejected; but the code applies the
transform from `(2000, 500, -10, -50)` even though its slope `37.5` is
positive — no slope-sign policy check exists. -/
theorem C6_counterexample :
    calibrate 2000 500 (-10) (-50) = .applied (75 / 2) (-190 / 3)
    ∧ (0 : ℚ) < 75 / 2 := by
  constructor <;> norm_num [calibrate]

/-- C6 amended: `Measurement.calibrate` performs no slope-sign check —
every input tuple that passes the zero guard and has nonzero denominators
is applied, whatever the sign of the derived slope (the datasheet slope
limits are only plotted for visual comparison, and `selectCal` does not
check the sign either). -/
theorem C6_no_slope_policy :
    ∀ high low cal_high cal_low : ℚ,
      high ≠ 0 → low ≠ 0 → cal_high ≠ 0 → cal_low ≠ 0 →
      cal_high ≠ cal_low → high ≠ low →
      calibrate high low cal_high cal_low =
        .applied ((high - low) / (cal_high - cal_low))
          (cal_high - high / ((high - low) / (cal_high - cal_low))) := by
  intro h l ch cl hh hl hch hcl hne hhl
  have h1 : ch - cl ≠ 0 := sub_ne_zero.mpr hne
  have h2 : (h - l) / (ch - cl) ≠ 0 := div_ne_zero (sub_ne_zero.mpr hhl) h1
  simp [calibrate, hh, hl, hch, hcl, h1, h2]

/-- Witness for C6's amended statement: a positive-slope calibration is
applied unchanged. -/
theorem C6_no_slope_policy_witness :
    calibrate 2000 500 (-20) (-50) =
      .applied ((2000 - 500) / (-20 - -50))
        (-20 - 2000 / ((2000 - 500) / (-20 - -50))) :=
  C6_no_slope_policy 2000 500 (-20) (-50) (by norm_num) (by norm_num)
    (by norm_num) (by norm_num) (by norm_num) (by norm_num)
